import Mathlib

/-!
Verification development for `module_xml.py`: a shallow embedding of the
regex-driven XML lexer (the REX `XML_SPE` pattern library), the token
classifier / tree builder (`XmlParser`), the node data model (`XmlNode`,
`XmlRoot`) and the serializer (`XmlSerializer`), together with theorems
about the properties the module is expected to satisfy.

Strings are modelled as `List Char`.  Python's backtracking regex engine is
translated fragment by fragment into deterministic consumer functions that
return the number of characters the fragment matches (0 where the fragment
fails or matches nothing); each consumer carries a comment naming the regex
fragment from `RegexCollector` that it translates.  Loops use a fuel
parameter (always instantiated with the remaining input length, which
bounds the iteration count because every iteration consumes at least one
character); this keeps every definition structurally recursive so that
concrete runs reduce definitionally.
-/

/-- Characters of a Lean string literal, as the `List Char` model used
throughout. -/
def chars (s : String) : List Char := s.data

/-- Regex fragment `S = [ \n\t\r]+` / `S1 = [\n\r\t ]` (single char test). -/
def isSpaceChar (c : Char) : Bool :=
  c == ' ' || c == '\n' || c == '\t' || c == '\r'

/-- Regex fragment `NameStrt = [A-Za-z_:]|[^\x00-\x7F]`. -/
def isNameStartChar (c : Char) : Bool :=
  (decide ('A' ≤ c) && decide (c ≤ 'Z')) || (decide ('a' ≤ c) && decide (c ≤ 'z')) ||
    c == '_' || c == ':' || decide (128 ≤ c.toNat)

/-- Regex fragment `NameChar = [A-Za-z0-9_:.-]|[^\x00-\x7F]`. -/
def isNameChar (c : Char) : Bool :=
  (decide ('A' ≤ c) && decide (c ≤ 'Z')) || (decide ('a' ≤ c) && decide (c ≤ 'z')) ||
    (decide ('0' ≤ c) && decide (c ≤ '9')) ||
    c == '_' || c == ':' || c == '.' || c == '-' || decide (128 ≤ c.toNat)

/-- Python regex whitespace `\s` (ASCII part), the complement of `\S` in the
`GetAttr` pattern, and the character test behind `str.isspace()`. -/
def isPySpace (c : Char) : Bool :=
  c == ' ' || c == '\t' || c == '\n' || c == '\r' || c == '\x0b' || c == '\x0c'

/-- One pass of Python `str.replace(pat, rep)`: replaces non-overlapping
occurrences left to right.  `fuel` bounds the recursion; `s.length` is
always enough because each step consumes at least one character of `s`
(all patterns used by the module are nonempty). -/
def replaceGo : Nat → List Char → List Char → List Char → List Char
  | 0, s, _, _ => s
  | _, [], _, _ => []
  | fuel + 1, c :: cs, pat, rep =>
    if pat.isPrefixOf (c :: cs) then
      rep ++ replaceGo fuel ((c :: cs).drop pat.length) pat rep
    else
      c :: replaceGo fuel cs pat rep

/-- Python `s.replace(pat, rep)`. -/
def replaceList (s pat rep : List Char) : List Char :=
  replaceGo s.length s pat rep

/-- The module constant `XML_REPLACEMENT_CHARS`, an insertion-ordered dict
from escaped entity to original character:
`&quot; -> "`, `&apos; -> '`, `&lt; -> <`, `&gt; -> >`, `&amp; -> &`. -/
def XML_REPLACEMENT_CHARS : List (List Char × List Char) :=
  [(chars "&quot;", chars "\""), (chars "&apos;", chars "'"), (chars "&lt;", chars "<"),
    (chars "&gt;", chars ">"), (chars "&amp;", chars "&")]

/-- `XmlSerializer._encode_string`: for each table entry, in declared order,
replace the original character by its escaped entity. -/
def encode_string (value : List Char) : List Char :=
  XML_REPLACEMENT_CHARS.foldl (fun s p => replaceList s p.2 p.1) value

/-- The replacement loop of `XmlNode._decode_string`: for each table entry,
in declared order, replace the escaped entity by the original character. -/
def decode_string_raw (value : List Char) : List Char :=
  XML_REPLACEMENT_CHARS.foldl (fun s p => replaceList s p.1 p.2) value

/-- `XmlNode._decode_string` including its truthiness guard: `None` and the
empty string are returned unchanged (falsy), any other string is decoded. -/
def decode_string (value : Option (List Char)) : Option (List Char) :=
  match value with
  | none => none
  | some v => if v.isEmpty then some v else some (decode_string_raw v)

/-!
The lexer.  Each `...Len` function translates one composed fragment of the
REX grammar built by `RegexCollector` and returns the number of characters
that fragment consumes at the head of its argument (with the conventions
described in the module doc comment).
-/

/-- Regex fragment `Name = (NameStrt)(NameChar)*`; 0 when `Name` fails. -/
def nameLen (cs : List Char) : Nat :=
  match cs with
  | c :: rest => if isNameStartChar c then 1 + (rest.takeWhile isNameChar).length else 0
  | [] => 0

/-- Regex fragment `S = [ \n\t\r]+` (0 when no whitespace follows). -/
def sLen (cs : List Char) : Nat :=
  (cs.takeWhile isSpaceChar).length

/-- Regex fragment `AttValSE = "[^<"]*"|'[^<']*'`; 0 when it fails. -/
def attValLen (cs : List Char) : Nat :=
  match cs with
  | '"' :: rest =>
    let k := (rest.takeWhile (fun c => c != '<' && c != '"')).length
    match rest.drop k with
    | '"' :: _ => k + 2
    | _ => 0
  | '\'' :: rest =>
    let k := (rest.takeWhile (fun c => c != '<' && c != '\'')).length
    match rest.drop k with
    | '\'' :: _ => k + 2
    | _ => 0
  | _ => 0

/-- Regex fragment `QuoteSE = "[^"]*"|'[^']*'`; 0 when it fails. -/
def quoteLen (cs : List Char) : Nat :=
  match cs with
  | '"' :: rest =>
    let k := (rest.takeWhile (fun c => c != '"')).length
    match rest.drop k with
    | '"' :: _ => k + 2
    | _ => 0
  | '\'' :: rest =>
    let k := (rest.takeWhile (fun c => c != '\'')).length
    match rest.drop k with
    | '\'' :: _ => k + 2
    | _ => 0
  | _ => 0

/-- The attribute star of `ElemTagCE`:
`(?:S Name (S)? = (S)? AttValSE)*`.  A block that fails part-way is given
back in full (regex backtracking at the star boundary). -/
def elemAttrsLen : Nat → List Char → Nat
  | 0, _ => 0
  | fuel + 1, cs =>
    let s := sLen cs
    if s == 0 then 0 else
    let cs1 := cs.drop s
    let n := nameLen cs1
    if n == 0 then 0 else
    let cs2 := cs1.drop n
    let s2 := sLen cs2
    match cs2.drop s2 with
    | '=' :: cs4 =>
      let s3 := sLen cs4
      let cs5 := cs4.drop s3
      let v := attValLen cs5
      if v == 0 then 0 else
      s + n + s2 + 1 + s3 + v + elemAttrsLen fuel (cs5.drop v)
    | _ => 0

/-- Regex fragment
`ElemTagCE = Name(?:S Name(?:S)?=(?:S)?(?:AttValSE))*(?:S)?/?>?`;
0 when `Name` fails (then `MarkupSPE`'s optional element branch is empty). -/
def elemTagLen (cs : List Char) : Nat :=
  let n := nameLen cs
  if n == 0 then 0 else
  let p := n + elemAttrsLen cs.length (cs.drop n)
  let p2 := p + sLen (cs.drop p)
  let p3 := p2 + (match cs.drop p2 with | '/' :: _ => 1 | _ => 0)
  p3 + (match cs.drop p3 with | '>' :: _ => 1 | _ => 0)

/-- Regex fragment `EndTagCE = Name(?:S)?>?`; 0 when `Name` fails. -/
def endTagLen (cs : List Char) : Nat :=
  let n := nameLen cs
  if n == 0 then 0 else
  let p := n + sLen (cs.drop n)
  p + (match cs.drop p with | '>' :: _ => 1 | _ => 0)

/-- The loop `UntilQMs(?:[^>?]UntilQMs)*>` inside `PI_Tail`, where
`UntilQMs = [^?]*\?+`: scan to a run of question marks, consume the run,
finish on `>`, step over any other character and continue; 0 on failure. -/
def untilQMsLoop : Nat → List Char → Nat
  | 0, _ => 0
  | fuel + 1, cs =>
    let a := (cs.takeWhile (fun c => c != '?')).length
    match cs.drop a with
    | [] => 0
    | cs1 =>
      let b := (cs1.takeWhile (fun c => c == '?')).length
      match cs1.drop b with
      | '>' :: _ => a + b + 1
      | [] => 0
      | _ :: rest2 =>
        let r := untilQMsLoop fuel rest2
        if r == 0 then 0 else a + b + 1 + r

/-- Regex fragment `PI_Tail = \?>|S1 UntilQMs(?:[^>?]UntilQMs)*>`;
0 when both alternatives fail (the tail is optional in `PI_CE`). -/
def piTailLen (cs : List Char) : Nat :=
  match cs with
  | '?' :: '>' :: _ => 2
  | c :: rest =>
    if isSpaceChar c then
      let r := untilQMsLoop (rest.length + 1) rest
      if r == 0 then 0 else 1 + r
    else 0
  | [] => 0

/-- Regex fragment `PI_CE = Name(?:PI_Tail)?`; 0 when `Name` fails. -/
def piCELen (cs : List Char) : Nat :=
  let n := nameLen cs
  if n == 0 then 0 else n + piTailLen (cs.drop n)

/-- Regex fragment `Until2Hyphens = UntilHyphen(?:[^-]UntilHyphen)*-` with
`UntilHyphen = [^-]*-`: consume up to and including the first `--`;
0 when the input holds no `--`. -/
def twoHyphensLen : Nat → List Char → Nat
  | 0, _ => 0
  | fuel + 1, cs =>
    let a := (cs.takeWhile (fun c => c != '-')).length
    match cs.drop a with
    | '-' :: '-' :: _ => a + 2
    | '-' :: rest =>
      let r := twoHyphensLen fuel rest
      if r == 0 then 0 else a + 1 + r
    | _ => 0

/-- Regex fragment `CommentCE = Until2Hyphens>?` (the optional part after
`<!--`); 0 when `Until2Hyphens` fails. -/
def commentLen (cs : List Char) : Nat :=
  let r := twoHyphensLen (cs.length + 1) cs
  if r == 0 then 0 else
  r + (match cs.drop r with | '>' :: _ => 1 | _ => 0)

/-- Regex fragment `UntilRSBs = [^\]]*](?:[^\]]+])*]+`: consume through the
first occurrence of `]]` plus all immediately following `]`; 0 on failure. -/
def untilRSBsLen : Nat → List Char → Nat
  | 0, _ => 0
  | fuel + 1, cs =>
    let a := (cs.takeWhile (fun c => c != ']')).length
    match cs.drop a with
    | [] => 0
    | cs1 =>
      let b := (cs1.takeWhile (fun c => c == ']')).length
      if 2 ≤ b then a + b
      else
        let r := untilRSBsLen fuel (cs1.drop b)
        if r == 0 then 0 else a + b + r

/-- Regex fragment `CDATA_CE = UntilRSBs(?:[^\]>]UntilRSBs)*>` (the optional
part after `<![CDATA[`); 0 when it fails. -/
def cdataLoop : Nat → List Char → Nat
  | 0, _ => 0
  | fuel + 1, cs =>
    let r := untilRSBsLen (cs.length + 1) cs
    if r == 0 then 0 else
    match cs.drop r with
    | '>' :: _ => r + 1
    | [] => 0
    | _ :: rest =>
      let r2 := cdataLoop fuel rest
      if r2 == 0 then 0 else r + 1 + r2

/-- The trailing star of `DT_IdentSE = S Name(?:S(?:Name|QuoteSE))*`: blocks
of whitespace followed by a name or a quoted string; a block that fails
after its whitespace is given back in full. -/
def dtIdentTail : Nat → List Char → Nat
  | 0, _ => 0
  | fuel + 1, cs =>
    let s := sLen cs
    if s == 0 then 0 else
    let cs1 := cs.drop s
    let n := nameLen cs1
    if n != 0 then s + n + dtIdentTail fuel (cs1.drop n)
    else
      let q := quoteLen cs1
      if q != 0 then s + q + dtIdentTail fuel (cs1.drop q)
      else 0

/-- Regex fragment `DT_IdentSE = S Name(?:S(?:Name|QuoteSE))*`; 0 on failure. -/
def dtIdentLen (cs : List Char) : Nat :=
  let s := sLen cs
  if s == 0 then 0 else
  let cs1 := cs.drop s
  let n := nameLen cs1
  if n == 0 then 0 else
  s + n + dtIdentTail (cs1.length + 1) (cs1.drop n)

/-- Regex fragment `MarkupDeclCE = (?:[^\]"'><]+|QuoteSE)*>`; 0 on failure. -/
def markupDeclLen : Nat → List Char → Nat
  | 0, _ => 0
  | fuel + 1, cs =>
    match cs with
    | '>' :: _ => 1
    | _ =>
      let a := (cs.takeWhile
        (fun c => c != ']' && c != '"' && c != '\'' && c != '>' && c != '<')).length
      if a != 0 then
        let r := markupDeclLen fuel (cs.drop a)
        if r == 0 then 0 else a + r
      else
        let q := quoteLen cs
        if q != 0 then
          let r := markupDeclLen fuel (cs.drop q)
          if r == 0 then 0 else q + r
        else 0

/-- Regex fragment `DT_ItemSE =
`<(?:!(?:--Until2Hyphens>|[^-]MarkupDeclCE)|\?Name(?:PI_Tail))|%Name;|S``
(one item of a DOCTYPE internal subset); 0 when no alternative matches. -/
def dtItemLen (cs : List Char) : Nat :=
  match cs with
  | '<' :: '!' :: '-' :: '-' :: rest =>
    let r := twoHyphensLen (rest.length + 1) rest
    if r == 0 then 0 else
    match rest.drop r with
    | '>' :: _ => 4 + r + 1
    | _ => 0
  | '<' :: '!' :: c :: rest =>
    if c == '-' then 0
    else
      let r := markupDeclLen (rest.length + 1) rest
      if r == 0 then 0 else 3 + r
  | '<' :: '?' :: rest =>
    let n := nameLen rest
    if n == 0 then 0 else
    let t := piTailLen (rest.drop n)
    if t == 0 then 0 else 2 + n + t
  | '%' :: rest =>
    let n := nameLen rest
    if n == 0 then 0 else
    match rest.drop n with
    | ';' :: _ => 1 + n + 1
    | _ => 0
  | c :: _ => if isSpaceChar c then sLen cs else 0
  | [] => 0

/-- The star `(?:DT_ItemSE)*`: total length of a maximal run of items
(0 items consume 0 characters, which is success for a star). -/
def dtItemsLoop : Nat → List Char → Nat
  | 0, _ => 0
  | fuel + 1, cs =>
    let r := dtItemLen cs
    if r == 0 then 0 else r + dtItemsLoop fuel (cs.drop r)

/-- Regex fragment
`DocTypeCE = DT_IdentSE(?:S)?(?:\[(?:DT_ItemSE)*](?:S)?)?>?` (the optional
part after `<!DOCTYPE`); 0 when `DT_IdentSE` fails. -/
def docTypeLen (cs : List Char) : Nat :=
  let i := dtIdentLen cs
  if i == 0 then 0 else
  let p1 := i + sLen (cs.drop i)
  let p2 := p1 + (match cs.drop p1 with
    | '[' :: rest =>
      let items := dtItemsLoop (rest.length + 1) rest
      match rest.drop items with
      | ']' :: rest2 => 1 + items + 1 + sLen rest2
      | _ => 0
    | _ => 0)
  p2 + (match cs.drop p2 with | '>' :: _ => 1 | _ => 0)

/-- Regex fragment
`DeclCE = --(?:CommentCE)?|\[CDATA\[(?:CDATA_CE)?|DOCTYPE(?:DocTypeCE)?`
(what may follow `<!`); 0 when no alternative matches (the group is
optional in `MarkupSPE`). -/
def declLen (cs : List Char) : Nat :=
  match cs with
  | '-' :: '-' :: rest => 2 + commentLen rest
  | '[' :: 'C' :: 'D' :: 'A' :: 'T' :: 'A' :: '[' :: rest =>
    7 + cdataLoop (rest.length + 1) rest
  | 'D' :: 'O' :: 'C' :: 'T' :: 'Y' :: 'P' :: 'E' :: rest => 7 + docTypeLen rest
  | _ => 0

/-- Regex fragment
`MarkupSPE = <(?:!(?:DeclCE)?|\?(?:PI_CE)?|/(?:EndTagCE)?|(?:ElemTagCE)?)`:
number of characters consumed after the leading `<`. -/
def markupTail (cs : List Char) : Nat :=
  match cs with
  | '!' :: rest => 1 + declLen rest
  | '?' :: rest => 1 + piCELen rest
  | '/' :: rest => 1 + endTagLen rest
  | _ => elemTagLen cs

/-- Length of the token starting at `c :: cs` under the master pattern
`XML_SPE = TextSE|MarkupSPE` (`TextSE = [^<]+`).  Always at least 1, so the
scan of `re.findall` never stalls and skips nothing. -/
def tokenLen (c : Char) (cs : List Char) : Nat :=
  1 + (if c == '<' then markupTail cs else (cs.takeWhile (fun d => d != '<')).length)

/-- `re.findall(XML_SPE, s)`: repeatedly take the token at the current
position and continue right after it.  `fuel` bounds the number of tokens;
`s.length` is always enough because every token is nonempty. -/
def tokenizeGo : Nat → List Char → List (List Char)
  | 0, _ => []
  | _, [] => []
  | fuel + 1, c :: cs =>
    let n := tokenLen c cs
    (c :: cs).take n :: tokenizeGo fuel ((c :: cs).drop n)

/-- The lexer: `XmlParser._findall(xml_string, full_regex)`. -/
def tokenize (s : List Char) : List (List Char) :=
  tokenizeGo s.length s

/-- `XmlParser._assert_lex`: the asserted expression
`"".join(self.tokens) == self.xml_string`. -/
def assert_lex (tokens : List (List Char)) (xml_string : List Char) : Bool :=
  tokens.flatten == xml_string

/-!
The attribute extractor: `re.findall(GetAttr, s)` for
`GetAttr = (\S*?)="(.*?)"`, followed by the dict comprehension of
`XmlParser._get_attributes`.
-/

/-- The lazy value group `(.*?)"` of `GetAttr`: the value is everything up
to the first `"`, which must occur with no newline before it (`.` does not
match a newline).  Returns the value and the rest after the closing quote,
or `none` when the group cannot close. -/
def closeAttrValue (cs : List Char) : Option (List Char × List Char) :=
  let k := (cs.takeWhile (fun c => c != '"' && c != '\n')).length
  match cs.drop k with
  | '"' :: rest => some (cs.take k, rest)
  | _ => none

/-- Leftmost match of `GetAttr = (\S*?)="(.*?)"` in the second argument.
`run` accumulates (reversed) the non-space characters immediately before
the scan position: at the first `="` that closes, the key is the maximal
`\S` run ending there (leftmost match start), the value the lazy group.
Returns key, value and the rest after the match, or `none`. -/
def findAttrMatch : List Char → List Char → Option (List Char × List Char × List Char)
  | _, [] => none
  | run, '=' :: rest =>
    match rest with
    | '"' :: rest2 =>
      match closeAttrValue rest2 with
      | some (v, after) => some (run.reverse, v, after)
      | none => findAttrMatch ('=' :: run) rest
    | _ => findAttrMatch ('=' :: run) rest
  | run, c :: rest =>
    if isPySpace c then findAttrMatch [] rest else findAttrMatch (c :: run) rest

/-- All matches of `GetAttr`, in scan order (`re.findall`).  Every match
consumes at least the three characters `="…"`, so `fuel := s.length` never
runs out. -/
def getAttrMatches : Nat → List Char → List (List Char × List Char)
  | 0, _ => []
  | fuel + 1, cs =>
    match findAttrMatch [] cs with
    | none => []
    | some (k, v, rest) => (k, v) :: getAttrMatches fuel rest

/-- Python dict insertion: a later duplicate key overwrites the value but
keeps the first-insertion position. -/
def dictInsert (d : List (List Char × List Char)) (k v : List Char) :
    List (List Char × List Char) :=
  if d.any (fun p => p.1 == k) then d.map (fun p => if p.1 == k then (p.1, v) else p)
  else d ++ [(k, v)]

/-- `XmlParser._get_attributes`: the dict comprehension
`{attribute[0]: attribute[1] for attribute in attribute_list}` over the
`GetAttr` matches (empty dict when there is no match). -/
def get_attributes (s : List Char) : List (List Char × List Char) :=
  (getAttrMatches s.length s).foldl (fun d p => dictInsert d p.1 p.2) []

/-- Python dict membership plus lookup (`'k' in d` / `d['k']`). -/
def lookupAttr (d : List (List Char × List Char)) (k : List Char) :
    Option (List Char) :=
  match d.find? (fun p => p.1 == k) with
  | some p => some p.2
  | none => none

/-- `XmlParser._get_tag` without its error path: the first match of the
`Name` pattern inside the token (`findall(...)[0]`), or `none` when no name
occurs (in which case `_get_tag` raises `XmlException`). -/
def get_tag_opt : List Char → Option (List Char)
  | [] => none
  | c :: rest =>
    if isNameStartChar c then some (c :: rest.takeWhile isNameChar)
    else get_tag_opt rest

/-- Python line-break characters recognised by `str.splitlines` (the
Basic Multilingual Plane set). -/
def isLineBreakChar (c : Char) : Bool :=
  c == '\n' || c == '\r' || c == '\x0b' || c == '\x0c' ||
    c == '\x1c' || c == '\x1d' || c == '\x1e' || c == '\x85' ||
    c == ' ' || c == ' '

/-- Worker for `str.splitlines`; `cur` holds the current line reversed. -/
def splitlinesGo : List Char → List Char → List (List Char)
  | [], cur => if cur.isEmpty then [] else [cur.reverse]
  | '\r' :: '\n' :: rest, cur => cur.reverse :: splitlinesGo rest []
  | c :: rest, cur =>
    if isLineBreakChar c then cur.reverse :: splitlinesGo rest []
    else splitlinesGo rest (c :: cur)

/-- Python `str.splitlines()`. -/
def splitlinesPy (s : List Char) : List (List Char) :=
  splitlinesGo s []

/-- `XmlParser._get_position`: join the processed tokens, split into lines,
and return `(number of lines, length of the last line)`; `(0, 0)` when
there are no lines. -/
def get_position (processed : List (List Char)) : Nat × Nat :=
  let lines := splitlinesPy processed.flatten
  match lines.getLast? with
  | none => (0, 0)
  | some last => (lines.length, last.length)

/-!
The tree data model: `XmlNode` and `XmlRoot`.
-/

/-- `XmlNode`: tag, attribute dict (insertion-ordered), stored value
(the private `_name` written by the `value` setter), child nodes.  The
Python object is freely mutated; here every mutation step builds a new
node. -/
inductive XmlNode : Type where
  | mk (tag : List Char) (attributes : List (List Char × List Char))
      (value : Option (List Char)) (nodes : List XmlNode)

/-- Field `tag`. -/
def XmlNode.tag : XmlNode → List Char
  | .mk t _ _ _ => t

/-- Field `attributes`. -/
def XmlNode.attributes : XmlNode → List (List Char × List Char)
  | .mk _ a _ _ => a

/-- Property `value` (getter): returns the stored `_name`. -/
def XmlNode.value : XmlNode → Option (List Char)
  | .mk _ _ v _ => v

/-- Field `nodes`. -/
def XmlNode.nodes : XmlNode → List XmlNode
  | .mk _ _ _ ns => ns

/-- Property `value` (setter): stores `_decode_string(value)`. -/
def XmlNode.setValue : XmlNode → Option (List Char) → XmlNode
  | .mk t a _ ns, v => .mk t a (decode_string v) ns

/-- Replace the `nodes` field (used for the in-place list mutations
`nodes.append(...)` / `nodes.insert(...)` of the Python object). -/
def XmlNode.setNodesF : XmlNode → List XmlNode → XmlNode
  | .mk t a v _, ns => .mk t a v ns

/-- `XmlNode.__init__`: note that the value goes through the `value`
setter and is therefore decoded. -/
def XmlNode.init (tag : List Char) (attributes : List (List Char × List Char))
    (value : Option (List Char)) (nodes : List XmlNode) : XmlNode :=
  .mk tag attributes (decode_string value) nodes

/-- Python truthiness of an optional string: `None` and `""` are falsy. -/
def optTruthy (v : Option (List Char)) : Bool :=
  match v with
  | some s => !s.isEmpty
  | none => false

mutual

/-- `XmlNode.is_empty`: false when the node has a (truthy) value or a
nonempty attribute dict; otherwise true when it has no children, else the
recursive check on the children. -/
def XmlNode.is_empty : XmlNode → Bool
  | .mk _ attrs v ns =>
    if optTruthy v || !attrs.isEmpty then false
    else if ns.isEmpty then true
    else XmlNode.nodes_are_empty ns

/-- `XmlNode.nodes_are_empty`: every child is recursively empty. -/
def XmlNode.nodes_are_empty : List XmlNode → Bool
  | [] => true
  | n :: ns => if !n.is_empty then false else XmlNode.nodes_are_empty ns

end

/-- `XmlRoot`: version / encoding / standalone / rootnode.  Python stores
strings or `None` in the first three fields and both `None` and `""` are
falsy everywhere these fields are read, so the model collapses `None` to
the empty list. -/
structure XmlRoot : Type where
  version : List Char
  encoding : List Char
  standalone : List Char
  rootnode : Option XmlNode

/-- `XmlRoot.__init__`: version is forced to `"1.0"` when the argument is
falsy (absent or empty); the Python defaults are
`encoding="utf-8"`, `standalone=None`, `rootnode=None`. -/
def XmlRoot.init (version encoding standalone : List Char)
    (rootnode : Option XmlNode) : XmlRoot :=
  { version := if version.isEmpty then chars "1.0" else version,
    encoding := encoding, standalone := standalone, rootnode := rootnode }

/-!
The builder: `XmlParser.parse_xml` and its `_process_*` token handlers.
-/

/-- The distinct raise sites of the parser (all raise `XmlException` in
Python; the spec names them `TagNotFoundError` for `noTagName`,
`MismatchedCloseTagError` for the two closing-tag sites, and
`LexIntegrityError` for the `_assert_lex` assertion).  Each error carries
the data interpolated into the Python message, including the
`_get_position` pair. -/
inductive XmlErr : Type where
  | lexAssertFailed
  | noTagName (s : List Char) (pos : Nat × Nat)
  | closingNoOpenNode (tag : List Char) (pos : Nat × Nat)
  | closingTagMismatch (closing : List Char) (opening : List Char) (pos : Nat × Nat)
  | strictLookupMiss (subtag : List Char) (parentTag : List Char)
  | listLowerAttributeError
deriving DecidableEq

/-- The spec's `MismatchedCloseTagError` covers exactly the two
closing-tag raise sites of `_process_endnode`. -/
def XmlErr.isMismatchedCloseTag : XmlErr → Bool
  | .closingNoOpenNode _ _ => true
  | .closingTagMismatch _ _ _ => true
  | _ => false

/-- Parser state: the target document, the open-node stack (`parent_nodes`,
innermost open node first — `self.current_node` is always the stack head,
absent when the stack is empty), and `tokens_processed`.  Python appends a
child to its parent's `nodes` list when the child *opens* and then mutates
it in place; the functional translation keeps each open node (with its
children so far) on the stack and attaches it to its parent when it
*closes*, which produces the same tree for every token sequence the parser
finishes or faults on. -/
structure ParserState : Type where
  root : XmlRoot
  stack : List XmlNode
  processed : List (List Char)

/-- `XmlParser._process_xmldeclaration`: extract the attribute pairs and
overwrite `version` / `encoding` / `standalone` for each key present. -/
def process_xmldeclaration (root : XmlRoot) (token : List Char) : XmlRoot :=
  let attributes := get_attributes token
  let r1 := match lookupAttr attributes (chars "version") with
    | some v => { root with version := v }
    | none => root
  let r2 := match lookupAttr attributes (chars "encoding") with
    | some v => { r1 with encoding := v }
    | none => r1
  match lookupAttr attributes (chars "standalone") with
  | some v => { r2 with standalone := v }
  | none => r2

/-- `XmlParser._process_startnode`: create a node for the extracted tag
with the extracted attributes, make it current, and open it (push).
(`_get_tag` raises when the token holds no name.) -/
def process_startnode (st : ParserState) (token : List Char) :
    Except XmlErr ParserState :=
  match get_tag_opt token with
  | none => .error (.noTagName token (get_position st.processed))
  | some tag =>
    let node : XmlNode := .mk tag (get_attributes token) (decode_string none) []
    .ok { st with stack := node :: st.stack }

/-- `XmlParser._process_endnode`: extract the tag; fail when no node is
open or when the tag differs from the open node's tag; otherwise pop, and
attach the closed node (to its parent's `nodes`, or as the document's
`rootnode` when the stack empties — Python stores that reference when the
node opens, see `ParserState`). -/
def process_endnode (st : ParserState) (token : List Char) :
    Except XmlErr ParserState :=
  match get_tag_opt token with
  | none => .error (.noTagName token (get_position st.processed))
  | some tag =>
    match st.stack with
    | [] => .error (.closingNoOpenNode tag (get_position st.processed))
    | top :: rest =>
      if top.tag != tag then
        .error (.closingTagMismatch tag top.tag (get_position st.processed))
      else
        match rest with
        | [] => .ok { st with root := { st.root with rootnode := some top }, stack := [] }
        | parent :: rest2 =>
          .ok { st with stack := parent.setNodesF (parent.nodes ++ [top]) :: rest2 }

/-- The character-data branch of `parse_xml`: assign the token to the
current node's `value` (through the decoding setter). -/
def set_value_token (st : ParserState) (token : List Char) : ParserState :=
  match st.stack with
  | [] => st
  | top :: rest => { st with stack := top.setValue (some token) :: rest }

/-- Python `token.startswith(p)`. -/
def startsWithS (p : String) (t : List Char) : Bool :=
  (chars p).isPrefixOf t

/-- Python `token.endswith(p)`. -/
def endsWithS (p : String) (t : List Char) : Bool :=
  (chars p).isSuffixOf t

/-- Python `token.isspace()`: nonempty and all whitespace. -/
def pyIsSpaceStr (t : List Char) : Bool :=
  !t.isEmpty && t.all isPySpace

/-- One iteration of the token loop of `XmlParser.parse_xml`: the literal
prefix/suffix dispatch chain, then the append to `tokens_processed`
(which in Python only happens when no exception was raised).  Comments,
CDATA, the `<!...` declaration family, processing instructions other than
the XML declaration (printed, not stored) and unrecognized markup (printed)
leave the state unchanged. -/
def process_token (st : ParserState) (token : List Char) :
    Except XmlErr ParserState :=
  let res :=
    if startsWithS "<" token then
      if startsWithS "<!--" token then .ok st
      else if startsWithS "<![CDATA" token then .ok st
      else if startsWithS "<!ELEMENT" token then .ok st
      else if startsWithS "<!ATTLIST" token then .ok st
      else if startsWithS "<!ENTITY" token then .ok st
      else if startsWithS "<!DOCTYPE" token then .ok st
      else if startsWithS "<!" token then .ok st
      else if startsWithS "<?xml" token then
        .ok { st with root := process_xmldeclaration st.root token }
      else if startsWithS "<?" token then .ok st
      else if startsWithS "</" token then process_endnode st token
      else if endsWithS "/>" token then
        match process_startnode st token with
        | .ok st1 => process_endnode st1 token
        | .error e => .error e
      else if endsWithS ">" token then process_startnode st token
      else .ok st
    else
      if !st.stack.isEmpty && !token.isEmpty && !pyIsSpaceStr token then
        .ok (set_value_token st token)
      else .ok st
  res.map (fun (s1 : ParserState) => { s1 with processed := s1.processed ++ [token] })

/-- The token loop of `XmlParser.parse_xml`. -/
def parse_tokens : ParserState → List (List Char) → Except XmlErr ParserState
  | st, [] => .ok st
  | st, t :: ts =>
    match process_token st t with
    | .ok st1 => parse_tokens st1 ts
    | .error e => .error e

/-- `XmlParser.__init__` followed by `parse_xml`: tokenize, run
`_assert_lex` (an `assert`, fatal when it fails), then fold the token loop
from the provided document and return it. -/
def parse_xml (xmlstring : List Char) (xml_root : XmlRoot) :
    Except XmlErr XmlRoot :=
  let tokens := tokenize xmlstring
  if assert_lex tokens xmlstring then
    match parse_tokens { root := xml_root, stack := [], processed := [] } tokens with
    | .ok st => .ok st.root
    | .error e => .error e
  else .error .lexAssertFailed

/-- `XmlRoot().from_xml(xmlstring)`: parse into a freshly constructed
document. -/
def from_xml (xmlstring : List Char) : Except XmlErr XmlRoot :=
  parse_xml xmlstring (XmlRoot.init [] (chars "utf-8") [] none)

/-!
The serializer: `XmlSerializer`.
-/

/-- `XmlSerializer._attributes_to_xml`: each pair is rendered as
`key="value" ` (note the trailing space after every pair, the last one
included), with any literal `"` in the value replaced by `&quot;`. -/
def attributes_to_xml (attributes : List (List Char × List Char)) : List Char :=
  attributes.foldl
    (fun output p =>
      output ++ p.1 ++ ('=' :: '"' :: replaceList p.2 (chars "\"") (chars "&quot;"))
        ++ ('"' :: [' ']))
    []

mutual

/-- `XmlSerializer._to_xml`: empty nodes render as the empty string;
otherwise the opening tag (with the attribute string when the dict is
nonempty), then either the direct `/>` close (no truthy value and no
nonempty descendant), or `>` followed by the children block (each child on
its own line, then a newline and the parent's indentation) or the encoded
value, and the closing tag. -/
def to_xml : XmlNode → Nat → List Char
  | .mk tag attrs v ns, intendation =>
    let intendationString := List.replicate intendation '\t'
    if XmlNode.is_empty (.mk tag attrs v ns) then []
    else
      let xml0 :=
        if !attrs.isEmpty then
          intendationString ++ ('<' :: tag) ++ (' ' :: attributes_to_xml attrs)
        else intendationString ++ ('<' :: tag)
      if (ns.isEmpty || XmlNode.nodes_are_empty ns) && !optTruthy v then
        xml0 ++ chars "/>"
      else
        let xml1 := xml0 ++ chars ">"
        let xml2 :=
          if !ns.isEmpty then
            xml1 ++ to_xml_children ns (intendation + 1) ++ ('\n' :: intendationString)
          else if optTruthy v then xml1 ++ encode_string (v.getD [])
          else xml1
        xml2 ++ (chars "</" ++ tag ++ chars ">")

/-- The children loop of `_to_xml`: every child (empty ones included) is
preceded by a newline and rendered one level deeper. -/
def to_xml_children : List XmlNode → Nat → List Char
  | [], _ => []
  | n :: ns, i => ('\n' :: to_xml n i) ++ to_xml_children ns i

end

/-- `XmlSerializer.serialize_xml`: build the declaration attribute dict
from the truthy document fields (in the order version, encoding,
standalone), emit `'<?xml {attrs} ?>\n'` when it is nonempty, then render
the root node at depth 0.  A document without a root node crashes in
Python (`None.is_empty()`), modelled as `none`. -/
def serialize_xml (xml_root : XmlRoot) : Option (List Char) :=
  let attributes :=
    (if !xml_root.version.isEmpty then [(chars "version", xml_root.version)] else []) ++
    (if !xml_root.encoding.isEmpty then [(chars "encoding", xml_root.encoding)] else []) ++
    (if !xml_root.standalone.isEmpty then [(chars "standalone", xml_root.standalone)] else [])
  let decl :=
    if !attributes.isEmpty then chars "<?xml " ++ attributes_to_xml attributes ++ chars " ?>\n"
    else []
  match xml_root.rootnode with
  | some node => some (decl ++ to_xml node 0)
  | none => none

/-!
The query / mutation API on `XmlNode`.
-/

/-- Python `str.lower()` on the ASCII tags used for case-insensitive tag
comparison. -/
def lowerL (s : List Char) : List Char :=
  s.map Char.toLower

/-- The module global `RAISE_NONE_ERROR` (strict lookup mode), `False`. -/
def RAISE_NONE_ERROR : Bool := false

/-- `XmlNode.get_all_nodes`: the direct children whose tag matches
case-insensitively, in order. -/
def get_all_nodes (n : XmlNode) (tag : List Char) : List XmlNode :=
  n.nodes.filter (fun m => lowerL m.tag == lowerL tag)

/-- The single-tag branch of `XmlNode.get_first_node`: first match of
`get_all_nodes`, or `None`. -/
def get_first_node_single (n : XmlNode) (tag : List Char) : Option XmlNode :=
  match get_all_nodes n tag with
  | [] => none
  | m :: _ => some m

/-- The list branch of `XmlNode.get_first_node`, with the caller's list
object threaded through: a path of length > 1 pops its head (`tag.pop(0)`)
before recursing — the second component is the final state of the caller's
list.  `strict` is the module global `RAISE_NONE_ERROR`; when a segment has
no match the result is an exception in strict mode and `None` otherwise.
A path of length 1 resolves its only segment without popping.  Python
reaches `tag.lower()` on a list when the path is empty and dies with
`AttributeError`, modelled by `listLowerAttributeError`. -/
def get_first_node_path (strict : Bool) :
    XmlNode → List (List Char) → Except XmlErr (Option XmlNode) × List (List Char)
  | _, [] => (.error .listLowerAttributeError, [])
  | n, [t] => (.ok (get_first_node_single n t), [t])
  | n, t :: t2 :: rest =>
    match get_first_node_single n t with
    | none =>
      if strict then (.error (.strictLookupMiss t n.tag), t2 :: rest)
      else (.ok none, t2 :: rest)
    | some sub => get_first_node_path strict sub (t2 :: rest)

/-- `XmlNode.get_index` for a single tag (for a list argument the method
returns `None` immediately): `get_first_node` returns the first
case-insensitive match, and `nodes.index` on that object finds exactly its
position, i.e. the index of the first match. -/
def get_index (n : XmlNode) (tag : List Char) : Option Nat :=
  n.nodes.findIdx? (fun m => lowerL m.tag == lowerL tag)

/-- Python `list.insert(i, x)` for nonnegative `i` (clamps past the end). -/
def listInsertPy (l : List XmlNode) (i : Nat) (x : XmlNode) : List XmlNode :=
  l.take i ++ x :: l.drop i

/-- The insertion step of `_insert_helper` on the resolved parent node:
`index = parentnode.get_index(index_tag)`, and when it is not `None`,
`parentnode.nodes.insert(index + add, node)`. -/
def doInsertAt (p : XmlNode) (index_tag : List Char) (node : XmlNode) (add : Nat) :
    XmlNode :=
  match get_index p index_tag with
  | none => p
  | some index => p.setNodesF (listInsertPy p.nodes (index + add) node)

/-- Apply `f` to the first case-insensitive match of `t` in a child list
(the child `get_first_node_single` returns), leaving the rest unchanged. -/
def updateFirstMatch (t : List Char) (f : XmlNode → XmlNode) :
    List XmlNode → List XmlNode
  | [] => []
  | m :: ms => if lowerL m.tag == lowerL t then f m :: ms else m :: updateFirstMatch t f ms

/-- Functional counterpart of mutating the node that
`get_first_node` resolves along `path`: rebuild the tree with `f` applied
at that node (unchanged tree when some segment has no match, matching the
`if not parentnode: return` no-op). -/
def updateAtPath : XmlNode → List (List Char) → (XmlNode → XmlNode) → XmlNode
  | n, [], _ => n
  | n, [t], f => n.setNodesF (updateFirstMatch t f n.nodes)
  | n, t :: t2 :: rest, f =>
    n.setNodesF (updateFirstMatch t (fun m => updateAtPath m (t2 :: rest) f) n.nodes)

/-- `XmlNode._insert_helper` for a list argument, threading the caller's
list object (second component of the result): a path of length > 1 pops
its last element (`tag.pop(-1)`) as the anchor tag and resolves the parent
via `get_first_node` on the remaining list (which pops more elements from
the front when that list still has more than one element); length 1 uses
`tag[0]` as anchor with `self` as parent and does not pop; the empty list
is an immediate `None` return.  An unresolved parent is a no-op. -/
def insert_helper (strict : Bool) (self : XmlNode) (tag : List (List Char))
    (node : XmlNode) (add : Nat) : Except XmlErr XmlNode × List (List Char) :=
  match tag with
  | [] => (.ok self, [])
  | [t] => (.ok (doInsertAt self t node add), [t])
  | t :: t2 :: rest =>
    let index_tag := (t2 :: rest).getLastD t
    let remaining := (t :: t2 :: rest).dropLast
    match get_first_node_path strict self remaining with
    | (.error e, fin) => (.error e, fin)
    | (.ok none, fin) => (.ok self, fin)
    | (.ok (some _), fin) =>
      (.ok (updateAtPath self remaining (fun p => doInsertAt p index_tag node add)), fin)

/-- `XmlNode._insert_helper` for a plain (non-list) tag argument: anchor is
the tag itself, parent is `self`. -/
def insert_helper_single (self : XmlNode) (tag : List Char) (node : XmlNode)
    (add : Nat) : XmlNode :=
  doInsertAt self tag node add

/-- `XmlNode.insert_before` (list argument): `_insert_helper` with
`add=0` under the module's global strict flag. -/
def insert_before (self : XmlNode) (tag : List (List Char)) (node : XmlNode) :
    Except XmlErr XmlNode × List (List Char) :=
  insert_helper RAISE_NONE_ERROR self tag node 0

/-- `XmlNode.insert_after` (list argument): `_insert_helper` with
`add=1` under the module's global strict flag. -/
def insert_after (self : XmlNode) (tag : List (List Char)) (node : XmlNode) :
    Except XmlErr XmlNode × List (List Char) :=
  insert_helper RAISE_NONE_ERROR self tag node 1

/-!
Helper lemmas.
-/

/-- Fuel-generic lexer losslessness: when the fuel covers the input
length, the tokens re-concatenate to the input (every token is nonempty,
so each step strictly shrinks the rest). -/
theorem tokenizeGo_join (fuel : Nat) :
    ∀ l : List Char, l.length ≤ fuel → (tokenizeGo fuel l).flatten = l := by
  induction fuel with
  | zero =>
    intro l h
    cases l with
    | nil => rfl
    | cons c cs => simp at h
  | succ fuel ih =>
    intro l h
    cases l with
    | nil => rfl
    | cons c cs =>
      have hdrop : ((c :: cs).drop (tokenLen c cs)).length ≤ fuel := by
        have h1 : tokenLen c cs = 1 + (tokenLen c cs - 1) := by
          simp [tokenLen]
        rw [List.length_drop]
        simp only [List.length_cons] at h ⊢
        have : 1 ≤ tokenLen c cs := by simp [tokenLen]
        omega
      simp only [tokenizeGo, List.flatten_cons]
      rw [ih _ hdrop, List.take_append_drop]

/-- Lexer losslessness helper: the tokens of `tokenize` re-concatenate to
the input. -/
theorem tokenize_flatten (s : List Char) : (tokenize s).flatten = s :=
  tokenizeGo_join s.length s (Nat.le_refl _)

/-- Transitivity of the prefix test along a literal prefix inclusion. -/
theorem startsWith_mono (p q : String) (t : List Char) :
    (chars p).isPrefixOf (chars q) = true → startsWithS q t = true →
    startsWithS p t = true := by
  intro h1 h2
  rw [List.isPrefixOf_iff_prefix] at h1
  rw [startsWithS, List.isPrefixOf_iff_prefix] at h2 ⊢
  exact h1.trans h2

/-- The final state of the threaded path list is always a suffix of the
path passed in (`get_first_node` only ever pops from the front). -/
theorem get_first_node_path_suffix (strict : Bool) :
    ∀ (l : List (List Char)) (n : XmlNode),
      (get_first_node_path strict n l).2 <:+ l := by
  intro l
  induction l with
  | nil => intro n; simp [get_first_node_path]
  | cons t rest ih =>
    intro n
    cases rest with
    | nil => simp [get_first_node_path]
    | cons t2 rest2 =>
      cases h : get_first_node_single n t with
      | none =>
        cases strict <;> simp [get_first_node_path, h]
      | some sub =>
        simp only [get_first_node_path, h]
        exact (ih sub).trans (List.suffix_cons t (t2 :: rest2))

/-- On a path of length at least two the head is popped before recursing,
so the final list state is a suffix of the tail. -/
theorem get_first_node_path_tail_suffix (strict : Bool) (n : XmlNode)
    (t t2 : List Char) (rest : List (List Char)) :
    (get_first_node_path strict n (t :: t2 :: rest)).2 <:+ t2 :: rest := by
  cases h : get_first_node_single n t with
  | none => cases strict <;> simp [get_first_node_path, h]
  | some sub =>
    simp only [get_first_node_path, h]
    exact get_first_node_path_suffix strict (t2 :: rest) sub

/-- `_insert_helper` on a path of length at least two leaves the caller's
list in whatever state the inner `get_first_node` call (on the list with
its last element popped) leaves it. -/
theorem insert_helper_snd (strict : Bool) (n : XmlNode) (t t2 : List Char)
    (rest : List (List Char)) (m : XmlNode) (a : Nat) :
    (insert_helper strict n (t :: t2 :: rest) m a).2 =
      (get_first_node_path strict n ((t :: t2 :: rest).dropLast)).2 := by
  show (insert_helper strict n (t :: t2 :: rest) m a).2 =
      (get_first_node_path strict n (t :: (t2 :: rest).dropLast)).2
  rcases hg : get_first_node_path strict n (t :: (t2 :: rest).dropLast) with ⟨res, fin⟩
  cases res with
  | error e => simp [insert_helper, hg]
  | ok o => cases o <;> simp [insert_helper, hg]

/-!
The claims.
-/

/-- C1: the claim states that `decode(encode(s)) == s` for every string
over the five reserved characters, with no re-encoding of characters
produced by earlier substitutions of the same pass.  The code violates
this: `_encode_string` iterates the table in its declared order, so the
final `& -> &amp;` substitution re-encodes the ampersands introduced by the
earlier entries.  At the failing input `"` the encoder yields
`&amp;quot;`, which decodes back to `&quot;`, not to `"`. -/
theorem C1_escape_not_inverse :
    encode_string (chars "\"") = chars "&amp;quot;" ∧
    decode_string_raw (encode_string (chars "\"")) = chars "&quot;" ∧
    decode_string_raw (encode_string (chars "\"")) ≠ chars "\"" :=
  ⟨rfl, rfl, by decide⟩

/-- C2: concatenating, in order, all tokens the lexer emits reproduces the
input exactly, for every input string; consequently the `_assert_lex`
check (`"".join(tokens) == xml_string`), run after every tokenization,
always passes. -/
theorem C2_lexer_lossless (s : List Char) :
    (tokenize s).flatten = s ∧ assert_lex (tokenize s) s = true := by
  refine ⟨tokenize_flatten s, ?_⟩
  simp [assert_lex, tokenize_flatten s]

/-- C3 counterexample: serializing the tree parsed from
`<r a="1"><c>text &amp; more</c></r>` does not produce the claimed string
`<r a="1">\n\t<c>text &amp; more</c>\n</r>` — `_attributes_to_xml` leaves
a trailing space after every attribute, so the opening tag is rendered
`<r a="1" >`. -/
theorem C3_roundtrip_exact_string_fails :
    (from_xml (chars "<r a=\"1\"><c>text &amp; more</c></r>")).map
        (fun r => r.rootnode.map (fun n => to_xml n 0))
      ≠ .ok (some (chars "<r a=\"1\">\n\t<c>text &amp; more</c>\n</r>")) := by
  intro h
  rw [show (from_xml (chars "<r a=\"1\"><c>text &amp; more</c></r>")).map
        (fun r => r.rootnode.map (fun n => to_xml n 0))
      = Except.ok (some (chars "<r a=\"1\" >\n\t<c>text &amp; more</c>\n</r>")) from rfl] at h
  simp only [Except.ok.injEq, Option.some.injEq] at h
  exact absurd h (by decide)

/-- C3 as amended: parsing `<r a="1"><c>text &amp; more</c></r>` yields a
root with tag `r`, attribute `a="1"`, no value, and exactly one child with
tag `c` whose stored value is the decoded `text & more`; serializing that
tree renders one tab per nesting level, a newline between the opening tag
and the children and a newline plus matching indentation before the
closing tag, but the attribute string carries its trailing space, giving
`<r a="1" >\n\t<c>text &amp; more</c>\n</r>`. -/
theorem C3_roundtrip_amended :
    from_xml (chars "<r a=\"1\"><c>text &amp; more</c></r>")
      = .ok { version := chars "1.0", encoding := chars "utf-8", standalone := [],
              rootnode := some (.mk (chars "r") [(chars "a", chars "1")] none
                [.mk (chars "c") [] (some (chars "text & more")) []]) } ∧
    to_xml (.mk (chars "r") [(chars "a", chars "1")] none
        [.mk (chars "c") [] (some (chars "text & more")) []]) 0
      = chars "<r a=\"1\" >\n\t<c>text &amp; more</c>\n</r>" :=
  ⟨rfl, rfl⟩

/-- C4 counterexample: after parsing
`<?xml version="1.1" encoding="utf-8"?><r a="1"/>`, the serialized
document does not begin with the claimed declaration line
`<?xml version="1.1" encoding="utf-8" ?>\n` (single space before `?>`):
the attribute serializer leaves a trailing space after the last pair and
the format string `<?xml {} ?>\n` adds another, producing two spaces. -/
theorem C4_declaration_exact_string_fails :
    (from_xml (chars "<?xml version=\"1.1\" encoding=\"utf-8\"?><r a=\"1\"/>")).map
        serialize_xml
      = .ok (some (chars "<?xml version=\"1.1\" encoding=\"utf-8\"  ?>\n<r a=\"1\" />")) ∧
    ((chars "<?xml version=\"1.1\" encoding=\"utf-8\" ?>\n").isPrefixOf
        (chars "<?xml version=\"1.1\" encoding=\"utf-8\"  ?>\n<r a=\"1\" />")) = false :=
  ⟨rfl, by decide⟩

/-- C4 as amended: parsing `<?xml version="1.1" encoding="utf-8"?>`
followed by a root element sets the document's version to `1.1` and
encoding to `utf-8` (standalone, absent from the declaration, keeps its
value), and serializing emits the declaration line
`<?xml version="1.1" encoding="utf-8"  ?>\n` — two spaces before `?>`,
one from the attribute serializer's trailing space and one from the
`<?xml {} ?>` format — followed by the rendered root. -/
theorem C4_declaration_amended :
    from_xml (chars "<?xml version=\"1.1\" encoding=\"utf-8\"?><r a=\"1\"/>")
      = .ok { version := chars "1.1", encoding := chars "utf-8", standalone := [],
              rootnode := some (.mk (chars "r") [(chars "a", chars "1")] none []) } ∧
    serialize_xml
        { version := chars "1.1", encoding := chars "utf-8", standalone := [],
          rootnode := some (.mk (chars "r") [(chars "a", chars "1")] none []) }
      = some (chars "<?xml version=\"1.1\" encoding=\"utf-8\"  ?>\n<r a=\"1\" />") :=
  ⟨rfl, rfl⟩

/-- C5: `_process_endnode` fails with the spec's `MismatchedCloseTagError`
whenever an end tag arrives while no node is open (`current_node` absent,
i.e. empty stack) or while the extracted tag differs from the open node's
tag; in particular parsing `<a><b></a>` fails at the second raise site,
with the position computed from the processed tokens `<a><b>`. -/
theorem C5_mismatched_close :
    (∀ (st : ParserState) (token tag : List Char),
        get_tag_opt token = some tag → st.stack = [] →
        process_endnode st token =
          .error (.closingNoOpenNode tag (get_position st.processed))) ∧
    (∀ (st : ParserState) (token tag : List Char) (top : XmlNode)
        (rest : List XmlNode),
        get_tag_opt token = some tag → st.stack = top :: rest → top.tag ≠ tag →
        process_endnode st token =
          .error (.closingTagMismatch tag top.tag (get_position st.processed))) ∧
    from_xml (chars "<a><b></a>")
      = .error (.closingTagMismatch (chars "a") (chars "b") (1, 6)) := by
  refine ⟨?_, ?_, rfl⟩
  · intro st token tag h1 h2
    simp [process_endnode, h1, h2]
  · intro st token tag top rest h1 h2 h3
    have hb : (top.tag != tag) = true := bne_iff_ne.mpr h3
    simp [process_endnode, h1, h2, hb]

/-- Witness for C5: the two raise sites hit at concrete states (an end tag
with an empty stack, and an end tag closing `a` while `b` is open after
the processed tokens `<a>`, `<b>`). -/
theorem C5_mismatched_close_witness :
    process_endnode
        { root := XmlRoot.init [] (chars "utf-8") [] none, stack := [],
          processed := [] } (chars "</a>")
      = .error (.closingNoOpenNode (chars "a") (0, 0)) ∧
    process_endnode
        { root := XmlRoot.init [] (chars "utf-8") [] none,
          stack := [.mk (chars "b") [] none []],
          processed := [chars "<a>", chars "<b>"] } (chars "</a>")
      = .error (.closingTagMismatch (chars "a") (chars "b") (1, 6)) := by
  constructor
  · exact C5_mismatched_close.1
      { root := XmlRoot.init [] (chars "utf-8") [] none, stack := [], processed := [] }
      (chars "</a>") (chars "a") rfl rfl
  · exact C5_mismatched_close.2.1
      { root := XmlRoot.init [] (chars "utf-8") [] none,
        stack := [.mk (chars "b") [] none []],
        processed := [chars "<a>", chars "<b>"] }
      (chars "</a>") (chars "a") (.mk (chars "b") [] none []) [] rfl rfl (by decide)

/-- C6: parsing `<a/>` and parsing `<a></a>` produce equal documents, whose
root node has tag `a`, empty attribute dict, no value and no children; and
any token that reaches the self-closing branch of the dispatch (starts with
`<` but none of the `<!`, `<?`, `</` families, and ends with `/>`) is
handled as start-tag handling immediately followed by end-tag handling on
the same token — push then pop in one step. -/
theorem C6_selfclosing_equivalence :
    (from_xml (chars "<a/>") = from_xml (chars "<a></a>") ∧
     from_xml (chars "<a/>")
       = .ok { version := chars "1.0", encoding := chars "utf-8", standalone := [],
               rootnode := some (.mk (chars "a") [] none []) }) ∧
    (∀ (st : ParserState) (token : List Char),
        startsWithS "<" token = true → startsWithS "<!" token = false →
        startsWithS "<?" token = false → startsWithS "</" token = false →
        endsWithS "/>" token = true →
        process_token st token =
          (match process_startnode st token with
            | .ok st1 => process_endnode st1 token
            | .error e => .error e).map
            (fun (s1 : ParserState) =>
              { s1 with processed := s1.processed ++ [token] })) := by
  refine ⟨⟨rfl, rfl⟩, ?_⟩
  intro st token h1 h2 h3 h4 h5
  have flong : ∀ p : String, (chars "<!").isPrefixOf (chars p) = true →
      startsWithS p token = false := by
    intro p hp
    cases hc : startsWithS p token with
    | false => rfl
    | true =>
      have := startsWith_mono "<!" p token hp hc
      rw [h2] at this
      exact Bool.noConfusion this
  have fxml : startsWithS "<?xml" token = false := by
    cases hc : startsWithS "<?xml" token with
    | false => rfl
    | true =>
      have := startsWith_mono "<?" "<?xml" token (by decide) hc
      rw [h3] at this
      exact Bool.noConfusion this
  rw [process_token]
  rw [h1, flong "<!--" (by decide), flong "<![CDATA" (by decide),
    flong "<!ELEMENT" (by decide), flong "<!ATTLIST" (by decide),
    flong "<!ENTITY" (by decide), flong "<!DOCTYPE" (by decide), h2, fxml, h3, h4, h5]
  simp only [Bool.false_eq_true, if_false, if_true]

/-- Witness for C6: the self-closing dispatch equation at the concrete
token `<a/>` from the empty initial state. -/
theorem C6_selfclosing_equivalence_witness :
    process_token
        { root := XmlRoot.init [] (chars "utf-8") [] none, stack := [],
          processed := [] } (chars "<a/>")
      = (match process_startnode
            { root := XmlRoot.init [] (chars "utf-8") [] none, stack := [],
              processed := [] } (chars "<a/>") with
          | .ok st1 => process_endnode st1 (chars "<a/>")
          | .error e => .error e).map
          (fun (s1 : ParserState) =>
            { s1 with processed := s1.processed ++ [chars "<a/>"] }) :=
  C6_selfclosing_equivalence.2
    { root := XmlRoot.init [] (chars "utf-8") [] none, stack := [], processed := [] }
    (chars "<a/>") rfl rfl rfl rfl rfl

/-- C7: on a tree whose descendant chain under the queried node is
`a > b > c` with `c` holding value `x`, the path lookup
`get_first_node(["a","b","c"])` resolves each segment among the direct
children of the previous match and returns the node with value `x`; and
with the strict flag at its module default (`RAISE_NONE_ERROR = false`),
`get_first_node(["a","zzz"])` returns an absent result — `.ok none`, no
exception — as soon as a segment has no match. -/
theorem C7_path_lookup :
    (get_first_node_path RAISE_NONE_ERROR
        (.mk (chars "root") [] none
          [.mk (chars "a") [] none
            [.mk (chars "b") [] none
              [.mk (chars "c") [] (some (chars "x")) []]]])
        [chars "a", chars "b", chars "c"]).1
      = .ok (some (.mk (chars "c") [] (some (chars "x")) [])) ∧
    (get_first_node_path RAISE_NONE_ERROR
        (.mk (chars "root") [] none
          [.mk (chars "a") [] none
            [.mk (chars "b") [] none
              [.mk (chars "c") [] (some (chars "x")) []]]])
        [chars "a", chars "zzz"]).1
      = .ok none :=
  ⟨rfl, rfl⟩

/-- C8 counterexample: the version field is not protected against an XML
declaration that carries an *empty* version attribute —
`_process_xmldeclaration` assigns `attributes['version']` unguarded, so
parsing `<?xml version=""?><a/>` leaves the document with an empty
version, violating the claimed invariant. -/
theorem C8_version_invariant_fails :
    (from_xml (chars "<?xml version=\"\"?><a/>")).map XmlRoot.version
      = .ok [] :=
  rfl

/-- C8 as amended: the version field is nonempty after construction
(`XmlRoot.__init__` forces `"1.0"` when the argument is unset or empty),
and processing an XML declaration preserves nonemptiness provided the
declaration's version attribute, when present, is nonempty; a declaration
carrying `version=""` is the one operation that breaks the invariant. -/
theorem C8_version_invariant_amended :
    (∀ (version encoding standalone : List Char) (rootnode : Option XmlNode),
        (XmlRoot.init version encoding standalone rootnode).version ≠ []) ∧
    (∀ (root : XmlRoot) (token : List Char),
        root.version ≠ [] →
        (∀ v, lookupAttr (get_attributes token) (chars "version") = some v → v ≠ []) →
        (process_xmldeclaration root token).version ≠ []) := by
  constructor
  · intro v e s r h
    by_cases hv : v.isEmpty
    · rw [show (XmlRoot.init v e s r).version = chars "1.0" by
        simp [XmlRoot.init, hv]] at h
      exact absurd h (by decide)
    · rw [show (XmlRoot.init v e s r).version = v by simp [XmlRoot.init, hv]] at h
      exact hv (by rw [h]; rfl)
  · intro root token h1 h2
    simp only [process_xmldeclaration]
    rcases hv : lookupAttr (get_attributes token) (chars "version") with _ | v <;>
      rcases he : lookupAttr (get_attributes token) (chars "encoding") with _ | w <;>
      rcases hs : lookupAttr (get_attributes token) (chars "standalone") with _ | u <;>
      simp only [hv, he, hs] <;>
      first
        | exact h1
        | exact h2 v hv

/-- Witness for C8's amended statement: the constructor invariant at the
module defaults, and declaration processing at the concrete token
`<?xml version="1.1"?>` (whose version attribute is `1.1`, nonempty). -/
theorem C8_version_invariant_amended_witness :
    (XmlRoot.init [] (chars "utf-8") [] none).version ≠ [] ∧
    (process_xmldeclaration (XmlRoot.init [] (chars "utf-8") [] none)
        (chars "<?xml version=\"1.1\"?>")).version ≠ [] := by
  constructor
  · exact C8_version_invariant_amended.1 [] (chars "utf-8") [] none
  · refine C8_version_invariant_amended.2
      (XmlRoot.init [] (chars "utf-8") [] none)
      (chars "<?xml version=\"1.1\"?>") (by decide) ?_
    intro v hv
    have hv1 : v = chars "1.1" := by
      rw [show lookupAttr (get_attributes (chars "<?xml version=\"1.1\"?>"))
            (chars "version") = some (chars "1.1") from rfl] at hv
      exact (Option.some.inj hv).symm
    rw [hv1]
    decide

/-- C9: serialization elision.  A node with no attributes and no value
whose only child is (recursively) empty is itself empty and renders as the
empty string, its tags included; a root node with exactly one attribute,
no children and no value renders at depth 0 in the self-closing form
(opening tag, the attribute string, then `/>`); and a document whose root
has that shape serializes to its declaration line followed by that
self-closing rendering. -/
theorem C9_empty_pruning :
    (∀ (tag : List Char) (child : XmlNode) (d : Nat),
        child.is_empty = true →
        to_xml (.mk tag [] none [child]) d = []) ∧
    (∀ (tag k v : List Char),
        to_xml (.mk tag [(k, v)] none []) 0
          = ('<' :: tag) ++ (' ' :: attributes_to_xml [(k, v)]) ++ chars "/>") ∧
    (∀ (xml_root : XmlRoot) (tag k v : List Char),
        xml_root.rootnode = some (.mk tag [(k, v)] none []) →
        ∃ decl,
          serialize_xml xml_root
            = some (decl ++
                (('<' :: tag) ++ (' ' :: attributes_to_xml [(k, v)]) ++ chars "/>"))) := by
  refine ⟨?_, ?_, ?_⟩
  · intro tag child d h
    have hne : XmlNode.is_empty (.mk tag [] none [child]) = true := by
      simp [XmlNode.is_empty, XmlNode.nodes_are_empty, optTruthy, h]
    simp [to_xml, hne]
  · intro tag k v
    simp [to_xml, XmlNode.is_empty, optTruthy, chars]
  · intro xml_root tag k v h
    have hto : to_xml (.mk tag [(k, v)] none []) 0
        = ('<' :: tag) ++ (' ' :: attributes_to_xml [(k, v)]) ++ chars "/>" := by
      simp [to_xml, XmlNode.is_empty, optTruthy, chars]
    exact ⟨_, by simp only [serialize_xml, h]; rw [hto]⟩

/-- Witness for C9: the elision parts applied at concrete nodes — a
childless-empty chain `p > q` rendering as the empty string, and the
one-attribute root `<r a="1" />` in self-closing form, standalone and
inside a document. -/
theorem C9_empty_pruning_witness :
    to_xml (.mk (chars "p") [] none [.mk (chars "q") [] none []]) 0 = [] ∧
    to_xml (.mk (chars "r") [(chars "a", chars "1")] none []) 0
      = ('<' :: chars "r") ++ (' ' :: attributes_to_xml [(chars "a", chars "1")])
          ++ chars "/>" ∧
    (∃ decl,
        serialize_xml
          { version := chars "1.0", encoding := chars "utf-8", standalone := [],
            rootnode := some (.mk (chars "r") [(chars "a", chars "1")] none []) }
          = some (decl ++ (('<' :: chars "r")
              ++ (' ' :: attributes_to_xml [(chars "a", chars "1")]) ++ chars "/>"))) :=
  ⟨C9_empty_pruning.1 (chars "p") (.mk (chars "q") [] none []) 0 rfl,
    C9_empty_pruning.2.1 (chars "r") (chars "a") (chars "1"),
    C9_empty_pruning.2.2
      { version := chars "1.0", encoding := chars "utf-8", standalone := [],
        rootnode := some (.mk (chars "r") [(chars "a", chars "1")] none []) }
      (chars "r") (chars "a") (chars "1") rfl⟩

/-- C10: the path-taking lookup and insert operations mutate their list
argument.  For every list of more than one element, `get_first_node` pops
the head before recursing, leaving the caller's list a suffix of the tail
(so never the list passed in), and `insert_before` / `insert_after`
(through `_insert_helper`) pop the last element first, leaving the
caller's list a suffix of the list without its last element (again never
the list passed in). -/
theorem C10_path_argument_mutated :
    (∀ (s : Bool) (n : XmlNode) (l : List (List Char)), 1 < l.length →
        (get_first_node_path s n l).2 <:+ l.tail ∧
        (get_first_node_path s n l).2 ≠ l) ∧
    (∀ (n : XmlNode) (l : List (List Char)) (m : XmlNode), 1 < l.length →
        (insert_before n l m).2 <:+ l.dropLast ∧ (insert_before n l m).2 ≠ l) ∧
    (∀ (n : XmlNode) (l : List (List Char)) (m : XmlNode), 1 < l.length →
        (insert_after n l m).2 <:+ l.dropLast ∧ (insert_after n l m).2 ≠ l) := by
  have hget : ∀ (s : Bool) (n : XmlNode) (l : List (List Char)), 1 < l.length →
      (get_first_node_path s n l).2 <:+ l.tail ∧ (get_first_node_path s n l).2 ≠ l := by
    intro s n l hl
    match l with
    | t :: t2 :: rest =>
      have hs := get_first_node_path_tail_suffix s n t t2 rest
      refine ⟨hs, ?_⟩
      intro heq
      have hle := hs.length_le
      rw [heq] at hle
      simp at hle
  have hins : ∀ (a : Nat) (n : XmlNode) (l : List (List Char)) (m : XmlNode),
      1 < l.length →
      (insert_helper RAISE_NONE_ERROR n l m a).2 <:+ l.dropLast ∧
      (insert_helper RAISE_NONE_ERROR n l m a).2 ≠ l := by
    intro a n l m hl
    match l with
    | t :: t2 :: rest =>
      have hkey := insert_helper_snd RAISE_NONE_ERROR n t t2 rest m a
      have hsfx : (insert_helper RAISE_NONE_ERROR n (t :: t2 :: rest) m a).2
          <:+ (t :: t2 :: rest).dropLast := by
        rw [hkey]
        exact get_first_node_path_suffix RAISE_NONE_ERROR _ n
      refine ⟨hsfx, ?_⟩
      intro heq
      have hle := hsfx.length_le
      rw [heq] at hle
      simp [List.length_dropLast] at hle
  exact ⟨hget, fun n l m hl => hins 0 n l m hl, fun n l m hl => hins 1 n l m hl⟩

/-- Witness for C10: the frame effect at a concrete two-segment path on a
concrete node — after `get_first_node(["a","b"])` the caller's list is a
suffix of `["b"]` and differs from `["a","b"]`, and likewise after
`insert_before` / `insert_after` it is a suffix of `["a"]` and differs
from `["a","b"]`. -/
theorem C10_path_argument_mutated_witness :
    ((get_first_node_path false (.mk (chars "n") [] none [])
        [chars "a", chars "b"]).2 <:+ [chars "b"] ∧
      (get_first_node_path false (.mk (chars "n") [] none [])
        [chars "a", chars "b"]).2 ≠ [chars "a", chars "b"]) ∧
    ((insert_before (.mk (chars "n") [] none []) [chars "a", chars "b"]
        (.mk (chars "m") [] none [])).2 <:+ [chars "a"] ∧
      (insert_before (.mk (chars "n") [] none []) [chars "a", chars "b"]
        (.mk (chars "m") [] none [])).2 ≠ [chars "a", chars "b"]) ∧
    ((insert_after (.mk (chars "n") [] none []) [chars "a", chars "b"]
        (.mk (chars "m") [] none [])).2 <:+ [chars "a"] ∧
      (insert_after (.mk (chars "n") [] none []) [chars "a", chars "b"]
        (.mk (chars "m") [] none [])).2 ≠ [chars "a", chars "b"]) :=
  ⟨C10_path_argument_mutated.1 false (.mk (chars "n") [] none [])
      [chars "a", chars "b"] (by decide),
    C10_path_argument_mutated.2.1 (.mk (chars "n") [] none [])
      [chars "a", chars "b"] (.mk (chars "m") [] none []) (by decide),
    C10_path_argument_mutated.2.2 (.mk (chars "n") [] none [])
      [chars "a", chars "b"] (.mk (chars "m") [] none []) (by decide)⟩
